import Mathlib

/-!
Verification development for the synthetic market-data generator of the
crypto demo backend (`demo-server.js`).

The generator consumes an unseeded uniform random source; we model it as an
explicit stream `rand : ℕ → ℝ` of draws in `[0, 1)`, consumed in program
order (five draws per generated historical day: price noise, volume, high,
low, open; one draw per prediction step).  JS numbers are modelled as real
numbers, except inside `calculateRSI`, whose unguarded division can produce
IEEE infinities and NaN: there we use the `JsNum` type which carries those
states explicitly.  `toFixed(d)` followed by `parseFloat` is modelled as
rounding to `d` decimal digits over ℝ.
-/

open Real

noncomputable section
open Classical

/-- JS `parseFloat(x.toFixed(2))`: round to 2 decimal digits. -/
def round2 (x : ℝ) : ℝ := (round (x * 100) : ℤ) / 100

/-- JS `parseFloat(x.toFixed(4))`: round to 4 decimal digits. -/
def round4 (x : ℝ) : ℝ := (round (x * 10000) : ℤ) / 10000

/-- JS `parseFloat(x.toFixed(0))`: round to an integer. -/
def round0 (x : ℝ) : ℝ := (round x : ℤ)

/-- The IEEE-double states reachable in `calculateRSI`: a finite value, the
two infinities, or NaN. -/
inductive JsNum where
  | num (x : ℝ)
  | posInf
  | negInf
  | nan

namespace JsNum

/-- IEEE addition restricted to the states of `JsNum`. -/
def add : JsNum → JsNum → JsNum
  | num a, num b => num (a + b)
  | num _, posInf => posInf
  | num _, negInf => negInf
  | posInf, num _ => posInf
  | negInf, num _ => negInf
  | posInf, posInf => posInf
  | negInf, negInf => negInf
  | posInf, negInf => nan
  | negInf, posInf => nan
  | _, _ => nan

/-- IEEE subtraction restricted to the states of `JsNum`. -/
def sub : JsNum → JsNum → JsNum
  | num a, num b => num (a - b)
  | num _, posInf => negInf
  | num _, negInf => posInf
  | posInf, num _ => posInf
  | negInf, num _ => negInf
  | posInf, negInf => posInf
  | negInf, posInf => negInf
  | posInf, posInf => nan
  | negInf, negInf => nan
  | _, _ => nan

/-- IEEE division restricted to the states of `JsNum` (JS literal zero is
`+0`, so a positive value divided by zero is `+Infinity`). -/
def div : JsNum → JsNum → JsNum
  | num a, num b =>
      if b = 0 then (if a = 0 then nan else if 0 < a then posInf else negInf)
      else num (a / b)
  | num _, posInf => num 0
  | num _, negInf => num 0
  | posInf, num b => if 0 ≤ b then posInf else negInf
  | negInf, num b => if 0 ≤ b then negInf else posInf
  | _, _ => nan

/-- JS truthiness of a number: every value except `0` and `NaN` is truthy. -/
def truthy : JsNum → Prop
  | num x => x ≠ 0
  | posInf => True
  | negInf => True
  | nan => False

/-- `parseFloat(x.toFixed(2))` on a `JsNum` (`Infinity.toFixed` round-trips
to `Infinity`, `NaN` to `NaN`). -/
def fix2 : JsNum → JsNum
  | num x => num (round2 x)
  | j => j

end JsNum

/-- `calculateSMA(prices, period)`: mean of the last `period` closes
(`prices.slice(-period)`), `null` when fewer than `period` observations. -/
def calculateSMA (prices : List ℝ) (period : ℕ) : Option ℝ :=
  if prices.length < period then none
  else some ((prices.drop (prices.length - period)).sum / period)

/-- The `change` examined at loop iteration `i` (`1 ≤ i ≤ period`) of
`calculateRSI`: `prices[prices.length - i] - prices[prices.length - i - 1]`. -/
def rsiChange (prices : List ℝ) (i : ℕ) : ℝ :=
  prices.getD (prices.length - i) 0 - prices.getD (prices.length - i - 1) 0

/-- The `gains` accumulator of `calculateRSI` after the first `n` loop
iterations (`gains += change` whenever `change > 0`). -/
def rsiGains (prices : List ℝ) : ℕ → ℝ
  | 0 => 0
  | i + 1 =>
      rsiGains prices i +
        (if 0 < rsiChange prices (i + 1) then rsiChange prices (i + 1) else 0)

/-- The `losses` accumulator of `calculateRSI` after the first `n` loop
iterations (`losses -= change` whenever `change ≤ 0`). -/
def rsiLosses (prices : List ℝ) : ℕ → ℝ
  | 0 => 0
  | i + 1 =>
      rsiLosses prices i +
        (if 0 < rsiChange prices (i + 1) then 0 else -rsiChange prices (i + 1))

/-- `calculateRSI(prices, period)`: `null` below `period + 1` observations,
otherwise `100 - 100/(1 + avgGain/avgLoss)` evaluated with IEEE semantics
(the division `avgGain / avgLoss` is not guarded against `avgLoss = 0`). -/
def calculateRSI (prices : List ℝ) (period : ℕ) : Option JsNum :=
  if prices.length < period + 1 then none
  else
    some (JsNum.sub (JsNum.num 100)
      (JsNum.div (JsNum.num 100)
        (JsNum.add (JsNum.num 1)
          (JsNum.div (JsNum.num (rsiGains prices period / period))
            (JsNum.num (rsiLosses prices period / period))))))

/-- One step of the EMA recurrence: `ema = (price - ema) * multiplier + ema`
with `multiplier = 2 / (period + 1)`. -/
def emaStep (period : ℕ) (e x : ℝ) : ℝ := (x - e) * (2 / ((period : ℝ) + 1)) + e

/-- The `ema` variable of `calculateEMA` after the first `n` iterations of
the loop `for (i = period; i < prices.length; i++)`; iteration `j` reads
`prices[period + j]`. -/
def emaIter (prices : List ℝ) (period : ℕ) : ℕ → ℝ
  | 0 => (prices.take period).sum / period
  | j + 1 => emaStep period (emaIter prices period j) (prices.getD (period + j) 0)

/-- `calculateEMA(prices, period)`: `null` below `period` observations,
otherwise the seeded recurrence run over the remaining observations. -/
def calculateEMA (prices : List ℝ) (period : ℕ) : Option ℝ :=
  if prices.length < period then none
  else some (emaIter prices period (prices.length - period))

/-- `calculateMACD(prices)`: `EMA(12) - EMA(26)`, except that the JS guard
`if (!ema12 || !ema26) return null` also maps a zero EMA to `null`. -/
def calculateMACD (prices : List ℝ) : Option ℝ :=
  match calculateEMA prices 12, calculateEMA prices 26 with
  | some a, some b => if a = 0 ∨ b = 0 then none else some (a - b)
  | _, _ => none

/-- The EMA as described by the spec: seed with the mean of the first
`period` values, then fold the recurrence over each subsequent value. -/
def specEMA (prices : List ℝ) (period : ℕ) : ℝ :=
  (prices.drop period).foldl (emaStep period) ((prices.take period).sum / period)

/-- Per-symbol base-price fraction of `generate3YearHistoricalData`
(unknown symbols fall back to `currentPrice * 0.2`). -/
def basePriceMult (symbol : String) : ℝ :=
  if symbol = "bitcoin" then 0.15
  else if symbol = "ethereum" then 0.12
  else if symbol = "solana" then 0.05
  else if symbol = "dogecoin" then 0.3
  else 0.2

/-- `basePrice`: the synthetic price three years ago. -/
def basePrice (symbol : String) (currentPrice : ℝ) : ℝ :=
  currentPrice * basePriceMult symbol

/-- The positive floor of the clamp `Math.max(price, basePrice * 0.1)`. -/
def floorPrice (symbol : String) (currentPrice : ℝ) : ℝ :=
  basePrice symbol currentPrice * 0.1

/-- `trend = (currentPrice - basePrice) / 1095`. -/
def trend (symbol : String) (currentPrice : ℝ) : ℝ :=
  (currentPrice - basePrice symbol currentPrice) / 1095

/-- `cyclical = Math.sin((i / 365) * 2 * Math.PI) * 0.1`. -/
def cyclical (i : ℕ) : ℝ := Real.sin (((i : ℝ) / 365) * (2 * π)) * 0.1

/-- `randomChange = (Math.random() - 0.5) * volatility` with
`volatility = 0.05`; day `i` draws stream index `5 * i`. -/
def dailyNoise (rand : ℕ → ℝ) (i : ℕ) : ℝ := (rand (5 * i) - 0.5) * 0.05

/-- The day-`i` price update before the clamp:
`price + trend + price * randomChange + price * cyclical`. -/
def preClampPrice (symbol : String) (cp : ℝ) (rand : ℕ → ℝ) (i : ℕ) (p : ℝ) : ℝ :=
  p + trend symbol cp + p * dailyNoise rand i + p * cyclical i

/-- The day-`i` price update with the positive floor clamp. -/
def priceStep (symbol : String) (cp : ℝ) (rand : ℕ → ℝ) (i : ℕ) (p : ℝ) : ℝ :=
  max (preClampPrice symbol cp rand i p) (floorPrice symbol cp)

/-- The running `price` variable: `priceAt 0` is the base price, and
`priceAt (i+1)` is the price pushed for day `i`. -/
def priceAt (symbol : String) (cp : ℝ) (rand : ℕ → ℝ) : ℕ → ℝ
  | 0 => basePrice symbol cp
  | i + 1 => priceStep symbol cp rand i (priceAt symbol cp rand i)

/-- The `prices` array right after day `k`'s `prices.push(price)`:
the raw (unrounded) daily prices of days `0..k`. -/
def pricesList (symbol : String) (cp : ℝ) (rand : ℕ → ℝ) (k : ℕ) : List ℝ :=
  (List.range (k + 1)).map (fun j => priceAt symbol cp rand (j + 1))

/-- The `indicators` object attached to each generated point. -/
structure Indicators where
  sma20 : Option ℝ
  sma50 : Option ℝ
  sma200 : Option ℝ
  rsi : Option JsNum
  macd : Option ℝ
  bollingerUpper : Option ℝ
  bollingerLower : Option ℝ

instance : Inhabited Indicators := ⟨⟨none, none, none, none, none, none, none⟩⟩

/-- JS `v ? f(v) : null` for a number-valued indicator `v`: a zero value is
falsy and becomes `null`. -/
def attachReal (v : Option ℝ) (f : ℝ → ℝ) : Option ℝ :=
  match v with
  | some x => if x = 0 then none else some (f x)
  | none => none

/-- JS `rsi ? parseFloat(rsi.toFixed(2)) : null`: zero and NaN are falsy. -/
def attachJs (v : Option JsNum) : Option JsNum :=
  match v with
  | some j => if j.truthy then some j.fix2 else none
  | none => none

/-- The indicator block computed for day `k` over the prices so far. -/
def indicatorsAt (symbol : String) (cp : ℝ) (rand : ℕ → ℝ) (k : ℕ) : Indicators :=
  let prices := pricesList symbol cp rand k
  { sma20 := attachReal (calculateSMA prices 20) round2
    sma50 := attachReal (calculateSMA prices 50) round2
    sma200 := attachReal (calculateSMA prices 200) round2
    rsi := attachJs (calculateRSI prices 14)
    macd := attachReal (calculateMACD prices) round4
    bollingerUpper := attachReal (calculateSMA prices 20) (fun s => round2 (s * 1.02))
    bollingerLower := attachReal (calculateSMA prices 20) (fun s => round2 (s * 0.98)) }

/-- One generated historical point (numeric fields; the `open` field of the
source is `openPrice` since `open` is reserved in Lean). -/
structure PricePoint where
  openPrice : ℝ
  high : ℝ
  low : ℝ
  close : ℝ
  volume : ℝ
  priceInr : ℝ
  indicators : Indicators

instance : Inhabited PricePoint := ⟨⟨0, 0, 0, 0, 0, 0, default⟩⟩

/-- The point generated for day `k` (`0 ≤ k < 1095`).  Day `k` consumes the
stream indices `5k` (price noise, inside `priceAt (k+1)`), `5k+1` (volume),
`5k+2` (high), `5k+3` (low) and `5k+4` (open). -/
def dataPoint (symbol : String) (cp : ℝ) (rand : ℕ → ℝ) (k : ℕ) : PricePoint :=
  let p := priceAt symbol cp rand (k + 1)
  { openPrice := round2 (p * (1 + (rand (5 * k + 4) - 0.5) * 0.01))
    high := round2 (p * (1 + rand (5 * k + 2) * 0.02))
    low := round2 (p * (1 - rand (5 * k + 3) * 0.02))
    close := round2 p
    volume := round0 (rand (5 * k + 1) * 1000000000)
    priceInr := round2 (p * 83)
    indicators := indicatorsAt symbol cp rand k }

/-- `generate3YearHistoricalData(symbol, currentPrice)`: 1095 daily points. -/
def generate3YearHistoricalData (symbol : String) (cp : ℝ) (rand : ℕ → ℝ) :
    List PricePoint :=
  (List.range 1095).map (dataPoint symbol cp rand)

/-- The sequential update described by the spec claim: first add the trend
increment, then scale the result by `(1 + noise)`, then by `(1 + cyclical)`
(the source instead combines the three contributions additively). -/
def specSequentialPreClamp (symbol : String) (cp : ℝ) (rand : ℕ → ℝ) (i : ℕ)
    (p : ℝ) : ℝ :=
  ((p + trend symbol cp) * (1 + dailyNoise rand i)) * (1 + cyclical i)

/-- The spec claim's sequential update followed by the positive floor clamp. -/
def specSequentialStep (symbol : String) (cp : ℝ) (rand : ℕ → ℝ) (i : ℕ)
    (p : ℝ) : ℝ :=
  max (specSequentialPreClamp symbol cp rand i p) (floorPrice symbol cp)

/-- `historicalData.slice(-30)` of `generateFuturePredictions`. -/
def recent30 (hist : List PricePoint) : List PricePoint :=
  hist.drop (hist.length - 30)

/-- The `reduce` accumulator of `avgChange` after scanning indices `0..n`
(index `0` contributes nothing). -/
def avgChangeSum (recent : List PricePoint) : ℕ → ℝ
  | 0 => 0
  | i + 1 =>
      avgChangeSum recent i +
        ((recent.getD (i + 1) default).close - (recent.getD i default).close) /
          (recent.getD i default).close

/-- `avgChange`: mean day-over-day fractional change of the trailing 30
closes (sum divided by `recent30Days.length - 1`). -/
def avgChange (hist : List PricePoint) : ℝ :=
  avgChangeSum (recent30 hist) ((recent30 hist).length - 1) /
    (((recent30 hist).length : ℝ) - 1)

/-- `cyclicalComponent = Math.sin((i / 30) * 2 * Math.PI) * 0.02`. -/
def predCyclical (i : ℕ) : ℝ := Real.sin (((i : ℝ) / 30) * (2 * π)) * 0.02

/-- `totalChange` of prediction step `i` (step `i` draws stream index `i`). -/
def totalChange (hist : List PricePoint) (rand : ℕ → ℝ) (i : ℕ) : ℝ :=
  avgChange hist * 0.3 + predCyclical i + (rand i - 0.5) * 0.03 + -0.0001 * (i : ℝ)

/-- The running predicted price: `price = price * (1 + totalChange)` per
step, starting from the current price. -/
def predPrice (cp : ℝ) (hist : List PricePoint) (rand : ℕ → ℝ) : ℕ → ℝ
  | 0 => cp
  | i + 1 => predPrice cp hist rand i * (1 + totalChange hist rand (i + 1))

/-- `volatilityBand = price * 0.1 * (i / 30)`. -/
def volatilityBand (cp : ℝ) (hist : List PricePoint) (rand : ℕ → ℝ) (i : ℕ) : ℝ :=
  predPrice cp hist rand i * 0.1 * ((i : ℝ) / 30)

/-- One forward prediction point (numeric fields). -/
structure Prediction where
  predictedPrice : ℝ
  priceInr : ℝ
  confidence : ℝ
  rangeHigh : ℝ
  rangeLow : ℝ

instance : Inhabited Prediction := ⟨⟨0, 0, 0, 0, 0⟩⟩

/-- The prediction of step `i` (`1 ≤ i ≤ 30`). -/
def predPoint (cp : ℝ) (hist : List PricePoint) (rand : ℕ → ℝ) (i : ℕ) :
    Prediction :=
  let p := predPrice cp hist rand i
  let vb := volatilityBand cp hist rand i
  { predictedPrice := round2 p
    priceInr := round2 (p * 83)
    confidence := round2 (max 0.5 (0.95 - (i : ℝ) * 0.01))
    rangeHigh := round2 (p + vb)
    rangeLow := round2 (p - vb) }

/-- `generateFuturePredictions(symbol, currentPrice, historicalData)`:
30 forward steps (the `symbol` argument is unused by the source body). -/
def generateFuturePredictions (_symbol : String) (cp : ℝ)
    (hist : List PricePoint) (rand : ℕ → ℝ) : List Prediction :=
  (List.range 30).map (fun j => predPoint cp hist rand (j + 1))

/-- A draw of the unseeded random source: every value lies in `[0, 1)`. -/
def ValidStream (rand : ℕ → ℝ) : Prop := ∀ n, 0 ≤ rand n ∧ rand n < 1

end

open Classical

/-! ### Rounding helpers -/

theorem abs_sub_round2 (x : ℝ) : |x - round2 x| ≤ 1 / 200 := by
  have h := abs_sub_round (x * 100)
  have hx : x - round2 x = (x * 100 - (round (x * 100) : ℤ)) / 100 := by
    unfold round2; ring
  rw [hx, abs_div, abs_of_pos (by norm_num : (0:ℝ) < 100)]
  linarith [abs_nonneg (x * 100 - (round (x * 100) : ℤ))]

theorem round2_le (x : ℝ) : round2 x ≤ x + 1 / 200 := by
  have h := abs_sub_round2 x
  have := abs_le.mp h
  linarith [this.1]

theorem le_round2 (x : ℝ) : x - 1 / 200 ≤ round2 x := by
  have h := abs_sub_round2 x
  have := abs_le.mp h
  linarith [this.2]

theorem round2_mono {x y : ℝ} (h : x ≤ y) : round2 x ≤ round2 y := by
  unfold round2
  have hr : round (x * 100) ≤ round (y * 100) := by
    rw [round_eq, round_eq]
    exact Int.floor_mono (by linarith)
  have : ((round (x * 100) : ℤ) : ℝ) ≤ ((round (y * 100) : ℤ) : ℝ) :=
    Int.cast_le.mpr hr
  linarith

theorem round2_int (n : ℤ) : round2 ((n : ℝ) / 100) = (n : ℝ) / 100 := by
  have h : ((n : ℝ) / 100) * 100 = (n : ℝ) := by ring
  unfold round2
  rw [h, round_intCast]

theorem round2_lt_round2 {x y : ℝ} (h : x + 1 / 100 < y) :
    round2 x < round2 y := by
  have h1 := round2_le x
  have h2 := le_round2 y
  linarith

/-! ### Basic facts about the historical price path -/

theorem basePriceMult_pos (s : String) : 0 < basePriceMult s := by
  unfold basePriceMult
  split_ifs <;> norm_num

theorem basePriceMult_ge (s : String) : 0.05 ≤ basePriceMult s := by
  unfold basePriceMult
  split_ifs <;> norm_num

theorem basePrice_pos {cp : ℝ} (s : String) (h : 0 < cp) : 0 < basePrice s cp :=
  mul_pos h (basePriceMult_pos s)

theorem floorPrice_pos {cp : ℝ} (s : String) (h : 0 < cp) : 0 < floorPrice s cp := by
  unfold floorPrice
  exact mul_pos (basePrice_pos s h) (by norm_num)

theorem priceAt_ge_floor (s : String) (cp : ℝ) (r : ℕ → ℝ) {i : ℕ}
    (h : 1 ≤ i) : floorPrice s cp ≤ priceAt s cp r i := by
  obtain ⟨j, rfl⟩ : ∃ j, i = j + 1 := ⟨i - 1, by omega⟩
  show floorPrice s cp ≤ priceStep s cp r j (priceAt s cp r j)
  exact le_max_right _ _

theorem priceAt_pos {cp : ℝ} (s : String) (r : ℕ → ℝ) (h : 0 < cp) (i : ℕ) :
    0 < priceAt s cp r i := by
  cases i with
  | zero => exact basePrice_pos s h
  | succ j =>
      exact lt_of_lt_of_le (floorPrice_pos s h)
        (priceAt_ge_floor s cp r (by omega))

theorem priceAt_congr (s : String) (cp : ℝ) (r1 r2 : ℕ → ℝ) (i : ℕ)
    (h : ∀ j, j < i → r1 (5 * j) = r2 (5 * j)) :
    priceAt s cp r1 i = priceAt s cp r2 i := by
  induction i with
  | zero => rfl
  | succ j ih =>
      show priceStep s cp r1 j (priceAt s cp r1 j)
         = priceStep s cp r2 j (priceAt s cp r2 j)
      rw [ih (fun m hm => h m (by omega))]
      unfold priceStep preClampPrice dailyNoise
      rw [h j (by omega)]

/-! ### Indexing the generated lists -/

theorem pricesList_length (s : String) (cp : ℝ) (r : ℕ → ℝ) (k : ℕ) :
    (pricesList s cp r k).length = k + 1 := by
  simp [pricesList]

theorem pricesList_getD (s : String) (cp : ℝ) (r : ℕ → ℝ) {k m : ℕ}
    (h : m ≤ k) : (pricesList s cp r k).getD m 0 = priceAt s cp r (m + 1) := by
  simp [pricesList, List.getD_eq_getElem?_getD, List.getElem?_map,
    List.getElem?_range (show m < k + 1 by omega)]

theorem generate_length (s : String) (cp : ℝ) (r : ℕ → ℝ) :
    (generate3YearHistoricalData s cp r).length = 1095 := by
  simp [generate3YearHistoricalData]

theorem generate_getD (s : String) (cp : ℝ) (r : ℕ → ℝ) {k : ℕ}
    (h : k < 1095) :
    (generate3YearHistoricalData s cp r).getD k default = dataPoint s cp r k := by
  simp [generate3YearHistoricalData, List.getD_eq_getElem?_getD,
    List.getElem?_map, List.getElem?_range h]

theorem predictions_length (s : String) (cp : ℝ) (hist : List PricePoint)
    (r : ℕ → ℝ) : (generateFuturePredictions s cp hist r).length = 30 := by
  simp [generateFuturePredictions]

theorem predictions_getD (s : String) (cp : ℝ) (hist : List PricePoint)
    (r : ℕ → ℝ) {j : ℕ} (h : j < 30) :
    (generateFuturePredictions s cp hist r).getD j default
      = predPoint cp hist r (j + 1) := by
  simp [generateFuturePredictions, List.getD_eq_getElem?_getD,
    List.getElem?_map, List.getElem?_range h]

/-! ### Confidence evaluation -/

theorem conf_eval {k : ℕ} (h : k ≤ 45) :
    round2 (max 0.5 (0.95 - (k : ℝ) * 0.01)) = ((95 : ℝ) - k) / 100 := by
  have hk : (k : ℝ) ≤ 45 := by exact_mod_cast h
  have h1 : max 0.5 (0.95 - (k : ℝ) * 0.01) = 0.95 - (k : ℝ) * 0.01 :=
    max_eq_right (by linarith)
  have h2 : (0.95 - (k : ℝ) * 0.01) = ((95 - (k : ℤ) : ℤ) : ℝ) / 100 := by
    push_cast; ring
  rw [h1, h2, round2_int]
  push_cast; ring

/-! ### C8: confidence is strictly decreasing over the 30-step horizon -/

/-- C8: for every run of the prediction generator (any symbol, price,
historical input and random draw), the confidence values of consecutive
predictions are strictly decreasing in the horizon index. -/
theorem C8_confidence_strict_decreasing (s : String) (cp : ℝ)
    (hist : List PricePoint) (r : ℕ → ℝ) {j : ℕ} (h : j + 1 < 30) :
    ((generateFuturePredictions s cp hist r).getD (j + 1) default).confidence
      < ((generateFuturePredictions s cp hist r).getD j default).confidence := by
  rw [predictions_getD s cp hist r h, predictions_getD s cp hist r (by omega)]
  show round2 (max 0.5 (0.95 - ((j + 1 + 1 : ℕ) : ℝ) * 0.01))
      < round2 (max 0.5 (0.95 - ((j + 1 : ℕ) : ℝ) * 0.01))
  rw [conf_eval (show j + 1 + 1 ≤ 45 by omega), conf_eval (show j + 1 ≤ 45 by omega)]
  have : ((j : ℝ)) ≥ 0 := Nat.cast_nonneg j
  push_cast
  linarith

theorem C8_confidence_strict_decreasing_witness :
    ((generateFuturePredictions "bitcoin" 65000 [] (fun _ => 0)).getD 1
        default).confidence
      < ((generateFuturePredictions "bitcoin" 65000 [] (fun _ => 0)).getD 0
        default).confidence :=
  C8_confidence_strict_decreasing "bitcoin" 65000 [] (fun _ => 0) (by norm_num)

/-! ### C3: the confidence formula and its endpoint values -/

/-- C3 counterexample: the 30th (last) prediction's confidence is 0.65, not
0.5 — the floor is not reached within the 30-step horizon. -/
theorem C3_counterexample :
    ((generateFuturePredictions "bitcoin" 65000 [] (fun _ => 0)).getD 29
        default).confidence = 0.65 ∧ (0.65 : ℝ) ≠ 0.5 := by
  constructor
  · rw [predictions_getD "bitcoin" 65000 [] (fun _ => 0) (by norm_num)]
    show round2 (max 0.5 (0.95 - ((29 + 1 : ℕ) : ℝ) * 0.01)) = 0.65
    rw [conf_eval (by norm_num)]
    norm_num
  · norm_num

/-- C3 (amended): the confidence of step `i` equals
`max(0.5, 0.95 - 0.01 i)`; the first prediction's confidence is 0.94 and
the 30th's is 0.65 (the 0.5 floor would only be reached from step 45 on). -/
theorem C3_confidence_formula (cp : ℝ) (hist : List PricePoint) (r : ℕ → ℝ)
    {i : ℕ} (h1 : 1 ≤ i) (h2 : i ≤ 30) :
    (predPoint cp hist r i).confidence = max 0.5 (0.95 - (i : ℝ) * 0.01)
      ∧ (predPoint cp hist r 1).confidence = 0.94
      ∧ (predPoint cp hist r 30).confidence = 0.65 := by
  refine ⟨?_, ?_, ?_⟩
  · show round2 (max 0.5 (0.95 - (i : ℝ) * 0.01)) = max 0.5 (0.95 - (i : ℝ) * 0.01)
    have hi : (i : ℝ) ≤ 30 := by exact_mod_cast h2
    rw [conf_eval (by omega), max_eq_right (by linarith)]
    ring
  · show round2 (max 0.5 (0.95 - ((1 : ℕ) : ℝ) * 0.01)) = 0.94
    rw [conf_eval (by norm_num)]
    norm_num
  · show round2 (max 0.5 (0.95 - ((30 : ℕ) : ℝ) * 0.01)) = 0.65
    rw [conf_eval (by norm_num)]
    norm_num

theorem C3_confidence_formula_witness :
    (predPoint 65000 [] (fun _ => 0) 1).confidence
        = max 0.5 (0.95 - ((1 : ℕ) : ℝ) * 0.01)
      ∧ (predPoint 65000 [] (fun _ => 0) 1).confidence = 0.94
      ∧ (predPoint 65000 [] (fun _ => 0) 30).confidence = 0.65 :=
  C3_confidence_formula 65000 [] (fun _ => 0) (by norm_num) (by norm_num)

/-! ### C2: the daily update is additive, not a sequential scaling -/

/-- C2 counterexample: on day 0 for bitcoin at price 65000 (noise draw 0.9,
so `randomChange = 0.02`, and `cyclical 0 = 0`), the generated close differs
from the value prescribed by the claim's sequential update
`((p + trend) * (1 + noise)) * (1 + cyclical)`. -/
theorem C2_counterexample :
    ((generate3YearHistoricalData "bitcoin" 65000
        (fun n => if n = 0 then (0.9 : ℝ) else 0)).getD 0 default).close
      ≠ round2 (specSequentialStep "bitcoin" 65000
          (fun n => if n = 0 then (0.9 : ℝ) else 0) 0
          (basePrice "bitcoin" 65000)) := by
  have hb : basePrice "bitcoin" 65000 = 9750 := by
    norm_num [basePrice, basePriceMult]
  have ht : trend "bitcoin" 65000 = 55250 / 1095 := by
    norm_num [trend, basePrice, basePriceMult]
  have hf : floorPrice "bitcoin" 65000 = 975 := by
    norm_num [floorPrice, basePrice, basePriceMult]
  have hcyc : cyclical 0 = 0 := by simp [cyclical]
  have hnoise : dailyNoise (fun n => if n = 0 then (0.9 : ℝ) else 0) 0 = 0.02 := by
    norm_num [dailyNoise]
  have hpre : preClampPrice "bitcoin" 65000
      (fun n => if n = 0 then (0.9 : ℝ) else 0) 0 (basePrice "bitcoin" 65000)
        = 9945 + 55250 / 1095 := by
    unfold preClampPrice
    rw [hb, ht, hcyc, hnoise]
    ring
  have hstep : priceAt "bitcoin" 65000
      (fun n => if n = 0 then (0.9 : ℝ) else 0) 1 = 9945 + 55250 / 1095 := by
    show priceStep "bitcoin" 65000 _ 0 (priceAt "bitcoin" 65000 _ 0)
        = 9945 + 55250 / 1095
    unfold priceStep
    show max (preClampPrice "bitcoin" 65000 _ 0 (basePrice "bitcoin" 65000)) _ = _
    rw [hpre, hf]
    exact max_eq_left (by norm_num)
  have hspec : specSequentialStep "bitcoin" 65000
      (fun n => if n = 0 then (0.9 : ℝ) else 0) 0 (basePrice "bitcoin" 65000)
        = (9750 + 55250 / 1095) * 1.02 := by
    unfold specSequentialStep specSequentialPreClamp
    rw [hb, ht, hcyc, hnoise, hf]
    rw [max_eq_left (by norm_num)]
    ring
  rw [generate_getD _ _ _ (by norm_num)]
  show round2 (priceAt "bitcoin" 65000 _ (0 + 1)) ≠ _
  rw [show (0 + 1) = 1 from rfl, hstep, hspec]
  exact ne_of_lt (round2_lt_round2 (by norm_num))

/-- C2 (amended): the code's pre-clamp update is the additive combination
`p * (1 + noise + cyclical) + trend` — each of the noise and seasonal
factors scales the previous running price and their contributions are
added, and the trend increment is not scaled; it differs from the spec's
sequential scaling by `trend * (noise + cyc + noise * cyc) + p * noise * cyc`. -/
theorem C2_additive_update (s : String) (cp : ℝ) (r : ℕ → ℝ) (i : ℕ) (p : ℝ) :
    preClampPrice s cp r i p
        = p * (1 + dailyNoise r i + cyclical i) + trend s cp
      ∧ specSequentialPreClamp s cp r i p - preClampPrice s cp r i p
        = trend s cp * (dailyNoise r i + cyclical i + dailyNoise r i * cyclical i)
          + p * (dailyNoise r i * cyclical i) := by
  constructor <;> (simp only [preClampPrice, specSequentialPreClamp]; ring)

/-! ### C5: OHLC invariants -/

theorem round2_zero : round2 0 = 0 := by
  simp [round2]

theorem round2_half_cent : round2 (1 / 200) = 1 / 100 := by
  have h : (1 / 200 : ℝ) * 100 = 1 / 2 := by norm_num
  unfold round2
  rw [h, round_eq]
  norm_num

/-- C5 counterexample: with the high/low jitter draws equal to 0 and the
open jitter draw equal to 0 on day 0, the generated open lies strictly
below the generated low, refuting `low ≤ open ≤ high`. -/
theorem C5_counterexample :
    ((generate3YearHistoricalData "bitcoin" 65000
        (fun n => if n = 0 then (0.5 : ℝ) else 0)).getD 0 default).openPrice
      < ((generate3YearHistoricalData "bitcoin" 65000
        (fun n => if n = 0 then (0.5 : ℝ) else 0)).getD 0 default).low := by
  have ht : trend "bitcoin" 65000 = 55250 / 1095 := by
    norm_num [trend, basePrice, basePriceMult]
  have hcyc : cyclical 0 = 0 := by simp [cyclical]
  have hstep : priceAt "bitcoin" 65000
      (fun n => if n = 0 then (0.5 : ℝ) else 0) 1 = 9750 + 55250 / 1095 := by
    show priceStep "bitcoin" 65000 _ 0 (priceAt "bitcoin" 65000 _ 0)
        = 9750 + 55250 / 1095
    unfold priceStep
    show max (preClampPrice "bitcoin" 65000 _ 0 (basePrice "bitcoin" 65000)) _ = _
    unfold preClampPrice dailyNoise
    rw [ht, hcyc]
    have hb : basePrice "bitcoin" 65000 = 9750 := by
      norm_num [basePrice, basePriceMult]
    have hf : floorPrice "bitcoin" 65000 = 975 := by
      norm_num [floorPrice, basePrice, basePriceMult]
    rw [hb, hf]
    norm_num
  rw [generate_getD _ _ _ (by norm_num)]
  show round2 (priceAt "bitcoin" 65000 _ (0 + 1) * (1 + (_ - 0.5) * 0.01))
      < round2 (priceAt "bitcoin" 65000 _ (0 + 1) * (1 - _ * 0.02))
  rw [show (0 + 1) = 1 from rfl, hstep]
  norm_num
  exact round2_lt_round2 (by norm_num)

/-- C5 (amended): for every generated point (any symbol, `currentPrice ≥ 1`
and draw of the random source) the rounded fields satisfy
`low ≤ close ≤ high`, `low ≥ 0` and `close > 0`; the open, however, carries
an independent jitter and need not lie between low and high (see the
counterexample), and for sub-cent prices the 2-decimal rounding could take
the close to 0, whence the `currentPrice ≥ 1` hypothesis. -/
theorem C5_ohlc_invariants (s : String) {cp : ℝ} (r : ℕ → ℝ)
    (hcp : 1 ≤ cp) (hr : ValidStream r) {k : ℕ} (hk : k < 1095) :
    ((generate3YearHistoricalData s cp r).getD k default).low
        ≤ ((generate3YearHistoricalData s cp r).getD k default).close
      ∧ ((generate3YearHistoricalData s cp r).getD k default).close
        ≤ ((generate3YearHistoricalData s cp r).getD k default).high
      ∧ 0 ≤ ((generate3YearHistoricalData s cp r).getD k default).low
      ∧ 0 < ((generate3YearHistoricalData s cp r).getD k default).close := by
  rw [generate_getD _ _ _ hk]
  have hp0 : 0 < cp := by linarith
  have hfloor : (1 : ℝ) / 200 ≤ priceAt s cp r (k + 1) := by
    have h1 := priceAt_ge_floor s cp r (show 1 ≤ k + 1 by omega)
    have h2 := basePriceMult_ge s
    have : (1 : ℝ) / 200 ≤ floorPrice s cp := by
      unfold floorPrice basePrice
      nlinarith
    linarith
  have hp : 0 < priceAt s cp r (k + 1) := by linarith
  have hlow := (hr (5 * k + 3)).1
  have hlow1 := (hr (5 * k + 3)).2
  have hhigh := (hr (5 * k + 2)).1
  refine ⟨?_, ?_, ?_, ?_⟩
  · show round2 (priceAt s cp r (k + 1) * (1 - r (5 * k + 3) * 0.02))
        ≤ round2 (priceAt s cp r (k + 1))
    exact round2_mono (by nlinarith)
  · show round2 (priceAt s cp r (k + 1))
        ≤ round2 (priceAt s cp r (k + 1) * (1 + r (5 * k + 2) * 0.02))
    exact round2_mono (by nlinarith)
  · show (0 : ℝ) ≤ round2 (priceAt s cp r (k + 1) * (1 - r (5 * k + 3) * 0.02))
    rw [show (0 : ℝ) = round2 0 from round2_zero.symm]
    exact round2_mono (by nlinarith)
  · show (0 : ℝ) < round2 (priceAt s cp r (k + 1))
    have := round2_mono hfloor
    rw [round2_half_cent] at this
    linarith

theorem C5_ohlc_invariants_witness :
    ((generate3YearHistoricalData "bitcoin" 1 (fun _ => 0)).getD 0 default).low
        ≤ ((generate3YearHistoricalData "bitcoin" 1 (fun _ => 0)).getD 0
          default).close
      ∧ ((generate3YearHistoricalData "bitcoin" 1 (fun _ => 0)).getD 0
          default).close
        ≤ ((generate3YearHistoricalData "bitcoin" 1 (fun _ => 0)).getD 0
          default).high
      ∧ 0 ≤ ((generate3YearHistoricalData "bitcoin" 1 (fun _ => 0)).getD 0
          default).low
      ∧ 0 < ((generate3YearHistoricalData "bitcoin" 1 (fun _ => 0)).getD 0
          default).close :=
  C5_ohlc_invariants "bitcoin" (fun _ => 0) (by norm_num)
    (fun n => by norm_num) (by norm_num)

/-! ### C9: EMA recurrence and MACD -/

theorem emaIter_eq_take (prices : List ℝ) (period : ℕ) :
    ∀ n, n ≤ prices.length - period →
      emaIter prices period n
        = ((prices.drop period).take n).foldl (emaStep period)
            ((prices.take period).sum / (period : ℝ)) := by
  intro n
  induction n with
  | zero => intro _; simp [emaIter]
  | succ m ih =>
      intro h
      have hidx : period + m < prices.length := by omega
      have h1 : (prices.drop period)[m]? = some (prices.getD (period + m) 0) := by
        rw [List.getElem?_drop, List.getElem?_eq_getElem hidx,
          List.getD_eq_getElem?_getD, List.getElem?_eq_getElem hidx]
        rfl
      simp only [emaIter]
      rw [ih (by omega), List.take_succ, h1]
      simp [List.foldl_append]

theorem calculateEMA_eq (prices : List ℝ) (period : ℕ) :
    calculateEMA prices period
      = if period ≤ prices.length then some (specEMA prices period) else none := by
  unfold calculateEMA specEMA
  by_cases h : period ≤ prices.length
  · rw [if_neg (by omega), if_pos h]
    congr 1
    rw [emaIter_eq_take prices period (prices.length - period) (le_refl _)]
    congr 1
    rw [← List.length_drop]
    exact List.take_length _
  · rw [if_pos (by omega), if_neg h]

theorem foldl_replicate_fixed {f : ℝ → ℝ → ℝ} {b a : ℝ} (h : f b a = b) :
    ∀ n, (List.replicate n a).foldl f b = b := by
  intro n
  induction n with
  | zero => rfl
  | succ m ih => rw [List.replicate_succ, List.foldl_cons, h]; exact ih

theorem specEMA_replicate_zero (p n : ℕ) :
    specEMA (List.replicate n (0 : ℝ)) p = 0 := by
  unfold specEMA
  rw [List.drop_replicate, List.take_replicate]
  have hsum : (List.replicate (min p n) (0 : ℝ)).sum = 0 := by
    simp
  rw [hsum]
  have hseed : (0 : ℝ) / (p : ℝ) = 0 := by simp
  rw [hseed]
  exact foldl_replicate_fixed (by simp [emaStep]) _

/-- C9 counterexample: on 26 zero closes both EMAs are defined (each equals
0), yet `calculateMACD` returns `null` because the JS guard
`if (!ema12 || !ema26)` treats the zero EMA as falsy. -/
theorem C9_counterexample :
    calculateMACD (List.replicate 26 (0 : ℝ)) = none
      ∧ calculateEMA (List.replicate 26 (0 : ℝ)) 12 = some 0
      ∧ calculateEMA (List.replicate 26 (0 : ℝ)) 26 = some 0 := by
  have h12 : calculateEMA (List.replicate 26 (0 : ℝ)) 12 = some 0 := by
    rw [calculateEMA_eq, if_pos (by simp), specEMA_replicate_zero]
  have h26 : calculateEMA (List.replicate 26 (0 : ℝ)) 26 = some 0 := by
    rw [calculateEMA_eq, if_pos (by simp), specEMA_replicate_zero]
  refine ⟨?_, h12, h26⟩
  unfold calculateMACD
  rw [h12, h26]
  simp

/-- C9 (amended): `calculateEMA` seeds with the arithmetic mean of the
first `period` values and folds the recurrence
`ema ← (price − ema)·(2/(period+1)) + ema` over each subsequent value,
returning `null` below `period` observations; `calculateMACD` equals
`EMA(12) − EMA(26)` when at least 26 observations exist and both EMAs are
nonzero, and `null` when either EMA is undefined or either is zero (JS
truthiness). -/
theorem C9_ema_macd (prices : List ℝ) (period : ℕ) :
    calculateEMA prices period
        = (if period ≤ prices.length then some (specEMA prices period) else none)
      ∧ calculateMACD prices
        = (if 26 ≤ prices.length then
            (if specEMA prices 12 = 0 ∨ specEMA prices 26 = 0 then none
             else some (specEMA prices 12 - specEMA prices 26))
           else none) := by
  refine ⟨calculateEMA_eq prices period, ?_⟩
  unfold calculateMACD
  rw [calculateEMA_eq prices 12, calculateEMA_eq prices 26]
  by_cases h26 : 26 ≤ prices.length
  · rw [if_pos (show 12 ≤ prices.length by omega), if_pos h26, if_pos h26]
  · rw [if_neg h26, if_neg h26]
    by_cases h12 : 12 ≤ prices.length
    · rw [if_pos h12]
    · rw [if_neg h12]

/-! ### RSI accumulator lemmas -/

theorem rsiGains_nonneg (prices : List ℝ) : ∀ n, 0 ≤ rsiGains prices n := by
  intro n
  induction n with
  | zero => simp [rsiGains]
  | succ m ih =>
      simp only [rsiGains]
      have : (0 : ℝ) ≤ if 0 < rsiChange prices (m + 1)
          then rsiChange prices (m + 1) else 0 := by
        split_ifs with h
        · linarith
        · linarith
      linarith

theorem rsiLosses_nonneg (prices : List ℝ) : ∀ n, 0 ≤ rsiLosses prices n := by
  intro n
  induction n with
  | zero => simp [rsiLosses]
  | succ m ih =>
      simp only [rsiLosses]
      have : (0 : ℝ) ≤ if 0 < rsiChange prices (m + 1)
          then 0 else -rsiChange prices (m + 1) := by
        split_ifs with h
        · linarith
        · push_neg at h; linarith
      linarith

theorem rsiGains_eq_zero (prices : List ℝ) {n : ℕ}
    (h : ∀ i, 1 ≤ i → i ≤ n → rsiChange prices i ≤ 0) :
    rsiGains prices n = 0 := by
  induction n with
  | zero => simp [rsiGains]
  | succ m ih =>
      simp only [rsiGains]
      rw [ih (fun i h1 h2 => h i h1 (by omega)),
        if_neg (by have := h (m + 1) (by omega) (by omega); linarith)]
      ring

theorem rsiLosses_eq_zero (prices : List ℝ) {n : ℕ}
    (h : ∀ i, 1 ≤ i → i ≤ n → 0 ≤ rsiChange prices i) :
    rsiLosses prices n = 0 := by
  induction n with
  | zero => simp [rsiLosses]
  | succ m ih =>
      simp only [rsiLosses]
      rw [ih (fun i h1 h2 => h i h1 (by omega))]
      have h0 := h (m + 1) (by omega) (by omega)
      split_ifs with hp
      · ring
      · push_neg at hp
        have : rsiChange prices (m + 1) = 0 := le_antisymm hp h0
        rw [this]
        ring

theorem rsiGains_mono (prices : List ℝ) {m n : ℕ} (h : m ≤ n) :
    rsiGains prices m ≤ rsiGains prices n := by
  induction n with
  | zero =>
      have : m = 0 := by omega
      subst this
      exact le_refl _
  | succ k ih =>
      rcases Nat.lt_or_ge m (k + 1) with hm | hm
      · have h1 := ih (by omega)
        simp only [rsiGains]
        have : (0 : ℝ) ≤ if 0 < rsiChange prices (k + 1)
            then rsiChange prices (k + 1) else 0 := by
          split_ifs with hc
          · linarith
          · linarith
        linarith
      · have : m = k + 1 := by omega
        subst this
        exact le_refl _

theorem rsiGains_pos (prices : List ℝ) {i n : ℕ} (h1 : 1 ≤ i) (h2 : i ≤ n)
    (hc : 0 < rsiChange prices i) : 0 < rsiGains prices n := by
  obtain ⟨j, rfl⟩ : ∃ j, i = j + 1 := ⟨i - 1, by omega⟩
  have step : 0 < rsiGains prices (j + 1) := by
    simp only [rsiGains]
    rw [if_pos hc]
    have := rsiGains_nonneg prices j
    linarith
  exact lt_of_lt_of_le step (rsiGains_mono prices h2)

theorem round2_hundred : round2 100 = 100 := by
  unfold round2
  rw [show (100 : ℝ) * 100 = ((10000 : ℤ) : ℝ) by norm_num, round_intCast]
  norm_num

/-- The only values `calculateRSI` can return with enough observations:
a finite number in `[0, 100]`, or NaN (when the window is flat). -/
theorem calculateRSI_cases (prices : List ℝ) (period : ℕ) :
    calculateRSI prices period = none
      ∨ calculateRSI prices period = some JsNum.nan
      ∨ ∃ v : ℝ, calculateRSI prices period = some (JsNum.num v)
          ∧ 0 ≤ v ∧ v ≤ 100 := by
  unfold calculateRSI
  by_cases hlen : prices.length < period + 1
  · left; rw [if_pos hlen]
  right
  rw [if_neg hlen]
  have hg : 0 ≤ rsiGains prices period / period :=
    div_nonneg (rsiGains_nonneg prices period) (Nat.cast_nonneg period)
  have hl : 0 ≤ rsiLosses prices period / period :=
    div_nonneg (rsiLosses_nonneg prices period) (Nat.cast_nonneg period)
  set g := rsiGains prices period / period with hgdef
  set l := rsiLosses prices period / period with hldef
  by_cases hl0 : l = 0
  · by_cases hg0 : g = 0
    · left
      simp [JsNum.div, JsNum.add, JsNum.sub, hl0, hg0]
    · right
      refine ⟨100, ?_, by norm_num, by norm_num⟩
      have hgpos : 0 < g := lt_of_le_of_ne hg (Ne.symm hg0)
      simp [JsNum.div, JsNum.add, JsNum.sub, hl0, hg0, hgpos]
  · right
    have hlpos : 0 < l := lt_of_le_of_ne hl (Ne.symm hl0)
    have hrs : 0 ≤ g / l := div_nonneg hg (le_of_lt hlpos)
    have hden : (1 : ℝ) + g / l ≠ 0 := by linarith
    refine ⟨100 - 100 / (1 + g / l), ?_, ?_, ?_⟩
    · simp [JsNum.div, JsNum.add, JsNum.sub, hl0, hden]
    · have : 100 / (1 + g / l) ≤ 100 := by
        rw [div_le_iff₀ (by linarith)]
        nlinarith
      linarith
    · have : 0 < 100 / (1 + g / l) := by positivity
      linarith

/-- If the `gains` accumulator is zero, the attached `rsi` indicator is
`null`: the RSI value is then `0` (some loss present) or NaN (flat window),
both falsy in JS. -/
theorem rsi_attach_none_of_gains_zero (prices : List ℝ) (period : ℕ)
    (h : rsiGains prices period = 0) :
    attachJs (calculateRSI prices period) = none := by
  unfold calculateRSI
  by_cases hlen : prices.length < period + 1
  · rw [if_pos hlen]; rfl
  rw [if_neg hlen]
  have hl : 0 ≤ rsiLosses prices period / period :=
    div_nonneg (rsiLosses_nonneg prices period) (Nat.cast_nonneg period)
  have hg0 : rsiGains prices period / period = 0 := by rw [h]; simp
  set l := rsiLosses prices period / period with hldef
  by_cases hl0 : l = 0
  · simp [JsNum.div, JsNum.add, JsNum.sub, attachJs, JsNum.truthy, hg0, hl0]
  · have : (0 : ℝ) / l = 0 := by simp
    simp [JsNum.div, JsNum.add, JsNum.sub, attachJs, JsNum.truthy, JsNum.fix2,
      hg0, hl0]

/-- C7 counterexample: on 15 equal closes the window is flat, so
`calculateRSI` divides `0/0` and returns NaN — a non-null result that is
not a number in `[0, 100]`. -/
theorem C7_counterexample :
    calculateRSI (List.replicate 15 (1 : ℝ)) 14 = some JsNum.nan
      ∧ some JsNum.nan ≠ (none : Option JsNum) := by
  constructor
  · have hchg : ∀ i, 1 ≤ i → i ≤ 14 →
        rsiChange (List.replicate 15 (1 : ℝ)) i = 0 := by
      intro i h1 h2
      unfold rsiChange
      have hlen : (List.replicate 15 (1 : ℝ)).length = 15 := by simp
      rw [hlen]
      have e1 : (List.replicate 15 (1 : ℝ)).getD (15 - i) 0 = 1 := by
        rw [List.getD_eq_getElem?_getD, List.getElem?_replicate,
          if_pos (by omega)]
        rfl
      have e2 : (List.replicate 15 (1 : ℝ)).getD (15 - i - 1) 0 = 1 := by
        rw [List.getD_eq_getElem?_getD, List.getElem?_replicate,
          if_pos (by omega)]
        rfl
      rw [e1, e2]
      ring
    have hgains := rsiGains_eq_zero (List.replicate 15 (1 : ℝ))
      (fun i h1 h2 => le_of_eq (hchg i h1 h2))
    have hlosses := rsiLosses_eq_zero (List.replicate 15 (1 : ℝ))
      (fun i h1 h2 => ge_of_eq (hchg i h1 h2))
    unfold calculateRSI
    rw [if_neg (by simp), hgains, hlosses]
    norm_num [JsNum.div, JsNum.add, JsNum.sub]
  · intro h
    cases h

/-- C7 (amended): wherever the RSI is non-null its value is a finite
number in `[0, 100]` or NaN, the NaN case arising exactly from a flat
window (`0/0`); for the indicator attached to generated series points the
NaN (and zero) cases are mapped to `null` by JS truthiness, so every
non-null attached value is a finite number in `[0, 100]`. -/
theorem C7_rsi_bounds :
    (∀ (prices : List ℝ) (period : ℕ),
        calculateRSI prices period = none
          ∨ calculateRSI prices period = some JsNum.nan
          ∨ ∃ v : ℝ, calculateRSI prices period = some (JsNum.num v)
              ∧ 0 ≤ v ∧ v ≤ 100)
      ∧ (∀ (s : String) (cp : ℝ) (r : ℕ → ℝ) (k : ℕ),
        (dataPoint s cp r k).indicators.rsi = none
          ∨ ∃ w : ℝ, (dataPoint s cp r k).indicators.rsi = some (JsNum.num w)
              ∧ 0 ≤ w ∧ w ≤ 100) := by
  refine ⟨calculateRSI_cases, ?_⟩
  intro s cp r k
  have hrw : (dataPoint s cp r k).indicators.rsi
      = attachJs (calculateRSI (pricesList s cp r k) 14) := rfl
  rw [hrw]
  rcases calculateRSI_cases (pricesList s cp r k) 14 with h | h | ⟨v, h, hv0, hv1⟩
  · left; rw [h]; rfl
  · left; rw [h]; simp [attachJs, JsNum.truthy]
  · by_cases hv : v = 0
    · left
      rw [h]
      simp [attachJs, JsNum.truthy, hv]
    · right
      refine ⟨round2 v, ?_, ?_, ?_⟩
      · rw [h]
        simp [attachJs, JsNum.truthy, JsNum.fix2, hv]
      · rw [← round2_zero]
        exact round2_mono hv0
      · rw [← round2_hundred]
        exact round2_mono hv1

/-! ### C10: the unguarded division in calculateRSI -/

theorem jsDiv_num_zero_pos {a : ℝ} (ha : 0 < a) :
    JsNum.div (JsNum.num a) (JsNum.num 0) = JsNum.posInf := by
  show (if (0 : ℝ) = 0
      then (if a = 0 then JsNum.nan else if 0 < a then JsNum.posInf else JsNum.negInf)
      else JsNum.num (a / 0)) = JsNum.posInf
  rw [if_pos rfl, if_neg (ne_of_gt ha), if_pos ha]

theorem jsAdd_num_posInf (a : ℝ) :
    JsNum.add (JsNum.num a) JsNum.posInf = JsNum.posInf := rfl

theorem jsDiv_num_posInf (a : ℝ) :
    JsNum.div (JsNum.num a) JsNum.posInf = JsNum.num 0 := rfl

theorem jsSub_num_num (a b : ℝ) :
    JsNum.sub (JsNum.num a) (JsNum.num b) = JsNum.num (a - b) := rfl

/-- C10: with at least 15 observations and no strictly negative delta in
the trailing 14-step window, `calculateRSI` divides by an `avgLoss` of
zero: when every delta is zero the `0/0` gives NaN; otherwise (some
strictly positive delta) `avgGain/0` is `+Infinity` and the result is
exactly 100. -/
theorem C10_rsi_division_by_zero (prices : List ℝ)
    (h : 15 ≤ prices.length)
    (hpos : ∀ i, 1 ≤ i → i ≤ 14 → 0 ≤ rsiChange prices i) :
    calculateRSI prices 14
      = if ∀ i, 1 ≤ i → i ≤ 14 → rsiChange prices i = 0
        then some JsNum.nan else some (JsNum.num 100) := by
  have hlosses := rsiLosses_eq_zero prices hpos
  unfold calculateRSI
  rw [if_neg (by omega), hlosses]
  by_cases hz : ∀ i, 1 ≤ i → i ≤ 14 → rsiChange prices i = 0
  · rw [if_pos hz]
    have hgains := rsiGains_eq_zero prices (fun i h1 h2 => le_of_eq (hz i h1 h2))
    rw [hgains]
    norm_num [JsNum.div, JsNum.add, JsNum.sub]
  · rw [if_neg hz]
    push_neg at hz
    obtain ⟨i, h1, h2, hne⟩ := hz
    have hcpos : 0 < rsiChange prices i :=
      lt_of_le_of_ne (hpos i h1 h2) (Ne.symm hne)
    have hgpos : 0 < rsiGains prices 14 / (14 : ℕ) :=
      div_pos (rsiGains_pos prices h1 h2 hcpos) (by norm_num)
    have hz14 : (0 : ℝ) / ((14 : ℕ) : ℝ) = 0 := by norm_num
    rw [hz14, jsDiv_num_zero_pos hgpos, jsAdd_num_posInf, jsDiv_num_posInf,
      jsSub_num_num]
    norm_num

theorem getD_replicate_append_single {a b : ℝ} {n m : ℕ} :
    (List.replicate n a ++ [b]).getD m 0
      = if m < n then a else if m = n then b else 0 := by
  rw [List.getD_eq_getElem?_getD]
  rcases lt_trichotomy m n with h | h | h
  · rw [List.getElem?_append_left (by simpa using h), List.getElem?_replicate,
      if_pos h, if_pos h]
    rfl
  · subst h
    rw [List.getElem?_append_right (by simp)]
    simp
  · rw [if_neg (by omega), if_neg (by omega)]
    rw [List.getElem?_eq_none (by simp; omega)]
    rfl

theorem C10_rsi_division_by_zero_witness :
    calculateRSI (List.replicate 14 (1 : ℝ) ++ [2]) 14
      = some (JsNum.num 100) := by
  have hlen : (List.replicate 14 (1 : ℝ) ++ [2]).length = 15 := by simp
  have hchg : ∀ i, 1 ≤ i → i ≤ 14 →
      rsiChange (List.replicate 14 (1 : ℝ) ++ [2]) i
        = if i = 1 then 1 else 0 := by
    intro i hi1 hi2
    unfold rsiChange
    rw [hlen, getD_replicate_append_single, getD_replicate_append_single]
    by_cases h1 : i = 1
    · subst h1
      norm_num
    · rw [if_pos (show 15 - i < 14 by omega), if_pos (show 15 - i - 1 < 14 by omega),
        if_neg h1]
      norm_num
  have hpos : ∀ i, 1 ≤ i → i ≤ 14 →
      0 ≤ rsiChange (List.replicate 14 (1 : ℝ) ++ [2]) i := by
    intro i h1 h2
    rw [hchg i h1 h2]
    split_ifs <;> norm_num
  have h := C10_rsi_division_by_zero (List.replicate 14 (1 : ℝ) ++ [2])
    (by rw [hlen]) hpos
  rw [h, if_neg]
  intro hall
  have h1 := hall 1 (by norm_num) (by norm_num)
  rw [hchg 1 (by norm_num) (by norm_num)] at h1
  norm_num at h1

/-! ### C1: anchoring of the last close -/

/-- C1 counterexample: it is not the case that every draw of the random
source anchors the last of the 1095 closes to the current price (even with
a generous tolerance of 1.0): two draws that agree until the final day but
differ in the final noise draw produce final closes about `0.02 * price`
apart, so they cannot both lie within 1.0 of 65000. -/
theorem C1_counterexample :
    ¬ ∀ r : ℕ → ℝ, ValidStream r →
      |((generate3YearHistoricalData "bitcoin" 65000 r).getD 1094
          default).close - 65000| ≤ 1 := by
  intro hall
  have hva : ValidStream (fun _ => (0.5 : ℝ)) := by
    intro n; constructor <;> norm_num
  have hvb : ValidStream (fun n => if n = 5470 then (0.9 : ℝ) else 0.5) := by
    intro n
    dsimp only
    split_ifs <;> constructor <;> norm_num
  have ha := hall _ hva
  have hb := hall _ hvb
  rw [generate_getD _ _ _ (by norm_num)] at ha hb
  set p := priceAt "bitcoin" 65000 (fun _ => (0.5 : ℝ)) 1094 with hp
  have hagree : priceAt "bitcoin" 65000
      (fun n => if n = 5470 then (0.9 : ℝ) else 0.5) 1094 = p := by
    rw [hp]
    apply priceAt_congr
    intro j hj
    dsimp only
    rw [if_neg (by omega)]
  have hfv : floorPrice "bitcoin" 65000 = 975 := by
    norm_num [floorPrice, basePrice, basePriceMult]
  have hpfloor : (975 : ℝ) ≤ p := by
    rw [hp, ← hfv]
    exact priceAt_ge_floor _ _ _ (by omega)
  have hna : dailyNoise (fun _ => (0.5 : ℝ)) 1094 = 0 := by
    norm_num [dailyNoise]
  have hnb : dailyNoise (fun n => if n = 5470 then (0.9 : ℝ) else 0.5) 1094
      = 0.02 := by
    norm_num [dailyNoise]
  set t := trend "bitcoin" 65000 with htdef
  set c := cyclical 1094 with hcdef
  have hca : (dataPoint "bitcoin" 65000 (fun _ => (0.5 : ℝ)) 1094).close
      = round2 (max (p + t + p * c) 975) := by
    show round2 (priceAt "bitcoin" 65000 (fun _ => (0.5 : ℝ)) (1094 + 1)) = _
    have hstep : priceAt "bitcoin" 65000 (fun _ => (0.5 : ℝ)) (1094 + 1)
        = priceStep "bitcoin" 65000 (fun _ => (0.5 : ℝ)) 1094 p := rfl
    rw [hstep]
    unfold priceStep preClampPrice
    rw [hna, hfv, ← htdef, ← hcdef]
    have harg : p + t + p * 0 + p * c = p + t + p * c := by ring
    rw [harg]
  have hcb : (dataPoint "bitcoin" 65000
      (fun n => if n = 5470 then (0.9 : ℝ) else 0.5) 1094).close
      = round2 (max (p + t + p * c + p * 0.02) 975) := by
    show round2 (priceAt "bitcoin" 65000
        (fun n => if n = 5470 then (0.9 : ℝ) else 0.5) (1094 + 1)) = _
    have hstep : priceAt "bitcoin" 65000
        (fun n => if n = 5470 then (0.9 : ℝ) else 0.5) (1094 + 1)
        = priceStep "bitcoin" 65000
            (fun n => if n = 5470 then (0.9 : ℝ) else 0.5) 1094
            (priceAt "bitcoin" 65000
              (fun n => if n = 5470 then (0.9 : ℝ) else 0.5) 1094) := rfl
    rw [hstep, hagree]
    unfold priceStep preClampPrice
    rw [hnb, hfv, ← htdef, ← hcdef]
    have harg : p + t + p * 0.02 + p * c = p + t + p * c + p * 0.02 := by ring
    rw [harg]
  rw [hca] at ha
  rw [hcb] at hb
  set u := p + t + p * c with hudef
  have h1 : (64999 : ℝ) ≤ round2 (max u 975) := by
    have h := abs_le.mp ha
    linarith [h.1]
  have h2 : (64998.9 : ℝ) ≤ max u 975 := by
    have h3 := round2_le (max u 975)
    linarith
  have hu : (64998.9 : ℝ) ≤ u := by
    rcases max_choice u 975 with hm | hm
    · rw [hm] at h2; exact h2
    · rw [hm] at h2; norm_num at h2
  have hub : (65018.3 : ℝ) ≤ u + p * 0.02 := by nlinarith
  have hmb : max (u + p * 0.02) 975 = u + p * 0.02 := max_eq_left (by linarith)
  rw [hmb] at hb
  have h4 : (65018.2 : ℝ) ≤ round2 (u + p * 0.02) := by
    have h5 := le_round2 (u + p * 0.02)
    linarith
  have h6 := abs_le.mp hb
  linarith [h6.2]

/-- C1 (amended): the linear trend increments alone do close the gap
exactly — `basePrice + 1095 * trend = currentPrice` for every symbol and
current price — but the multiplicative daily noise and seasonal terms make
the actually generated last close differ from `currentPrice` in general
(see the counterexample). -/
theorem C1_trend_closes_gap (s : String) (cp : ℝ) :
    basePrice s cp + 1095 * trend s cp = cp := by
  unfold trend
  ring

/-! ### C6: the uncertainty band -/

theorem totalChange_bounds (hist : List PricePoint) (r : ℕ → ℝ) (i : ℕ)
    (hr : ValidStream r) :
    avgChange hist * 0.3 - 0.035 - 0.0001 * (i : ℝ) ≤ totalChange hist r i
      ∧ totalChange hist r i
        ≤ avgChange hist * 0.3 + 0.035 - 0.0001 * (i : ℝ) := by
  have hs1 : -1 ≤ Real.sin (((i : ℝ) / 30) * (2 * π)) := Real.neg_one_le_sin _
  have hs2 : Real.sin (((i : ℝ) / 30) * (2 * π)) ≤ 1 := Real.sin_le_one _
  have hr1 := (hr i).1
  have hr2 := (hr i).2
  unfold totalChange predCyclical
  constructor <;> nlinarith

theorem predPrice_pos_of_nonneg_avg (cp : ℝ) (hist : List PricePoint)
    (r : ℕ → ℝ) (hcp : 0 < cp) (hr : ValidStream r)
    (havg : 0 ≤ avgChange hist) : ∀ i, i ≤ 30 → 0 < predPrice cp hist r i := by
  intro i
  induction i with
  | zero => intro _; exact hcp
  | succ m ih =>
      intro hm
      have h1 := ih (by omega)
      have htc := (totalChange_bounds hist r (m + 1) hr).1
      have hcast : ((m : ℝ) + 1) ≤ 30 := by
        have : (m : ℝ) ≤ 29 := by exact_mod_cast (by omega : m ≤ 29)
        linarith
      have hfac : (0 : ℝ) < 1 + totalChange hist r (m + 1) := by
        push_cast at htc
        nlinarith
      exact mul_pos h1 hfac

/-- For prediction steps 27 to 30 the monthly cycle term is close to the
end of its period, so it is only mildly negative. -/
theorem predCyclical_late {j : ℕ} (h1 : 27 ≤ j) (h2 : j ≤ 30) :
    -0.0126 ≤ predCyclical j := by
  unfold predCyclical
  have hx : ((j : ℝ) / 30) * (2 * π)
      = 2 * π - (((30 - j : ℕ) : ℝ) / 30) * (2 * π) := by
    push_cast [h2]
    ring
  have hsin : Real.sin (2 * π - (((30 - j : ℕ) : ℝ) / 30) * (2 * π))
      = -Real.sin ((((30 - j : ℕ) : ℝ) / 30) * (2 * π)) := by
    rw [Real.sin_sub, Real.sin_two_pi, Real.cos_two_pi]
    ring
  rw [hx, hsin]
  have hxval : (((30 - j : ℕ) : ℝ) / 30) * (2 * π) ≤ 0.63 := by
    have hle : ((30 - j : ℕ) : ℝ) ≤ 3 := by
      exact_mod_cast (by omega : 30 - j ≤ 3)
    have hge : (0 : ℝ) ≤ ((30 - j : ℕ) : ℝ) := Nat.cast_nonneg _
    nlinarith [Real.pi_lt_d2]
  have hxpos : (0 : ℝ) ≤ (((30 - j : ℕ) : ℝ) / 30) * (2 * π) := by
    have hge : (0 : ℝ) ≤ ((30 - j : ℕ) : ℝ) := Nat.cast_nonneg _
    positivity
  have := Real.sin_le hxpos
  nlinarith

/-- Under a nonnegative historical average change, each step factor
`1 + totalChange j` satisfies `(1 + totalChange j) * j ≥ j - 1`
(`2 ≤ j ≤ 30`), which is what band-width monotonicity needs. -/
theorem totalChange_ge_inv (hist : List PricePoint) (r : ℕ → ℝ)
    (hr : ValidStream r) (havg : 0 ≤ avgChange hist) {j : ℕ}
    (h1 : 2 ≤ j) (h2 : j ≤ 30) :
    (1 + totalChange hist r j) * (j : ℝ) ≥ (j : ℝ) - 1 := by
  have hjr1 : (2 : ℝ) ≤ (j : ℝ) := by exact_mod_cast h1
  have hjr2 : (j : ℝ) ≤ 30 := by exact_mod_cast h2
  rcases Nat.lt_or_ge j 27 with hj | hj
  · have htc := (totalChange_bounds hist r j hr).1
    have hjr3 : (j : ℝ) ≤ 26 := by exact_mod_cast (by omega : j ≤ 26)
    nlinarith
  · have hcyc := predCyclical_late hj h2
    have hr1 := (hr j).1
    have hr2 := (hr j).2
    have htc : -0.0306 ≤ totalChange hist r j := by
      unfold totalChange
      have : -0.0001 * (j : ℝ) ≥ -0.003 := by nlinarith
      nlinarith
    nlinarith

/-- C6 (amended): the unrounded band half-width is exactly
`price · 0.1 · (i/30)` and the reported (rounded) width is within one cent
of twice that; the width is non-decreasing in the horizon index whenever
the historical average change is nonnegative — but not for every input
history (see the counterexample, where a falling history makes the running
price shrink faster than the `i/30` factor grows). -/
theorem C6_band_width (cp : ℝ) (hist : List PricePoint) (r : ℕ → ℝ)
    (hcp : 0 < cp) (hr : ValidStream r) (havg : 0 ≤ avgChange hist)
    {i : ℕ} (h1 : 1 ≤ i) (h2 : i ≤ 29) :
    volatilityBand cp hist r i
        = predPrice cp hist r i * 0.1 * ((i : ℝ) / 30)
      ∧ volatilityBand cp hist r i ≤ volatilityBand cp hist r (i + 1)
      ∧ |((predPoint cp hist r i).rangeHigh - (predPoint cp hist r i).rangeLow)
          - 2 * volatilityBand cp hist r i| ≤ 1 / 100 := by
  refine ⟨rfl, ?_, ?_⟩
  · have hq := predPrice_pos_of_nonneg_avg cp hist r hcp hr havg i (by omega)
    have hkey := totalChange_ge_inv hist r hr havg
      (show 2 ≤ i + 1 by omega) (show i + 1 ≤ 30 by omega)
    unfold volatilityBand
    have hnext : predPrice cp hist r (i + 1)
        = predPrice cp hist r i * (1 + totalChange hist r (i + 1)) := rfl
    rw [hnext]
    have hcast : ((i + 1 : ℕ) : ℝ) = (i : ℝ) + 1 := by push_cast; ring
    rw [hcast]
    have hkey2 : (i : ℝ)
        ≤ (1 + totalChange hist r (i + 1)) * ((i : ℝ) + 1) := by
      push_cast at hkey
      linarith
    have hmul := mul_le_mul_of_nonneg_left hkey2 hq.le
    linarith [hmul]
  · have hh := abs_sub_round2 (predPrice cp hist r i + volatilityBand cp hist r i)
    have hl := abs_sub_round2 (predPrice cp hist r i - volatilityBand cp hist r i)
    have hh2 := abs_le.mp hh
    have hl2 := abs_le.mp hl
    have hHigh : (predPoint cp hist r i).rangeHigh
        = round2 (predPrice cp hist r i + volatilityBand cp hist r i) := rfl
    have hLow : (predPoint cp hist r i).rangeLow
        = round2 (predPrice cp hist r i - volatilityBand cp hist r i) := rfl
    rw [hHigh, hLow, abs_le]
    constructor <;> linarith [hh2.1, hh2.2, hl2.1, hl2.2]

theorem C6_band_width_witness :
    volatilityBand 1 [] (fun _ => 0) 1
        = predPrice 1 [] (fun _ => 0) 1 * 0.1 * ((1 : ℝ) / 30)
      ∧ volatilityBand 1 [] (fun _ => 0) 1 ≤ volatilityBand 1 [] (fun _ => 0) 2
      ∧ |((predPoint 1 [] (fun _ => 0) 1).rangeHigh
            - (predPoint 1 [] (fun _ => 0) 1).rangeLow)
          - 2 * volatilityBand 1 [] (fun _ => 0) 1| ≤ 1 / 100 := by
  have havg : avgChange ([] : List PricePoint) = 0 := by
    unfold avgChange recent30
    norm_num [avgChangeSum]
  have h := @C6_band_width 1 [] (fun _ => 0) (by norm_num)
    (fun n => by norm_num) (le_of_eq havg.symm) 1 (by norm_num) (by norm_num)
  refine ⟨?_, ?_, h.2.2⟩
  · rw [h.1]
    norm_num
  · have h21 := h.2.1
    norm_num at h21
    exact h21

/-- With a historical average change of `-1/2` (steeply falling recent
closes), the running predicted price shrinks by ≈ 12–19% per step, so at
step 11 the band `price * 0.1 * (i/30)` is strictly narrower than at
step 10, for every draw of the random source. -/
theorem width_decreases_at_10 (hist : List PricePoint) (r : ℕ → ℝ)
    (hr : ValidStream r) (havg : avgChange hist = -(1 / 2)) :
    (predPoint 65000 hist r 11).rangeHigh - (predPoint 65000 hist r 11).rangeLow
      < (predPoint 65000 hist r 10).rangeHigh
        - (predPoint 65000 hist r 10).rangeLow := by
  have hlow : ∀ j, j ≤ 10 → 65000 * (0.81 : ℝ) ^ j ≤ predPrice 65000 hist r j := by
    intro j
    induction j with
    | zero => intro _; norm_num [predPrice]
    | succ m ih =>
        intro hm
        have h1 := ih (by omega)
        have htc := (totalChange_bounds hist r (m + 1) hr).1
        rw [havg] at htc
        have hcast : ((m + 1 : ℕ) : ℝ) ≤ 11 := by
          exact_mod_cast (by omega : m + 1 ≤ 11)
        have hfac : (0.81 : ℝ) ≤ 1 + totalChange hist r (m + 1) := by
          push_cast at htc hcast
          nlinarith
        have hpos : (0 : ℝ) < predPrice 65000 hist r m :=
          lt_of_lt_of_le (by positivity) h1
        show 65000 * (0.81 : ℝ) ^ (m + 1)
            ≤ predPrice 65000 hist r m * (1 + totalChange hist r (m + 1))
        have e : 65000 * (0.81 : ℝ) ^ (m + 1) = 65000 * 0.81 ^ m * 0.81 := by
          ring
        rw [e]
        nlinarith [mul_le_mul_of_nonneg_right h1
            (show (0 : ℝ) ≤ 0.81 by norm_num),
          mul_le_mul_of_nonneg_left hfac hpos.le]
  have hq10 := hlow 10 (le_refl _)
  have hbound : (7900 : ℝ) ≤ predPrice 65000 hist r 10 := by
    have h : (7900 : ℝ) ≤ 65000 * (0.81 : ℝ) ^ 10 := by norm_num
    linarith
  have hq10pos : (0 : ℝ) < predPrice 65000 hist r 10 := by linarith
  have htc11 := (totalChange_bounds hist r 11 hr).2
  rw [havg] at htc11
  have htc11b : totalChange hist r 11 ≤ -0.116 := by
    push_cast at htc11
    nlinarith
  have hq11 : predPrice 65000 hist r 11
      = predPrice 65000 hist r 10 * (1 + totalChange hist r 11) := rfl
  have hvb10 : volatilityBand 65000 hist r 10
      = predPrice 65000 hist r 10 * 0.1 * (((10 : ℕ) : ℝ) / 30) := rfl
  have hvb11 : volatilityBand 65000 hist r 11
      = predPrice 65000 hist r 11 * 0.1 * (((11 : ℕ) : ℝ) / 30) := rfl
  have hprod : predPrice 65000 hist r 10 * totalChange hist r 11
      ≤ predPrice 65000 hist r 10 * (-0.116) :=
    mul_le_mul_of_nonneg_left htc11b hq10pos.le
  have hdiff : (1 : ℝ) ≤ volatilityBand 65000 hist r 10
      - volatilityBand 65000 hist r 11 := by
    rw [hvb10, hvb11, hq11]
    push_cast
    nlinarith [hprod, hbound]
  have hH11 : (predPoint 65000 hist r 11).rangeHigh
      = round2 (predPrice 65000 hist r 11 + volatilityBand 65000 hist r 11) :=
    rfl
  have hL11 : (predPoint 65000 hist r 11).rangeLow
      = round2 (predPrice 65000 hist r 11 - volatilityBand 65000 hist r 11) :=
    rfl
  have hH10 : (predPoint 65000 hist r 10).rangeHigh
      = round2 (predPrice 65000 hist r 10 + volatilityBand 65000 hist r 10) :=
    rfl
  have hL10 : (predPoint 65000 hist r 10).rangeLow
      = round2 (predPrice 65000 hist r 10 - volatilityBand 65000 hist r 10) :=
    rfl
  rw [hH11, hL11, hH10, hL10]
  have b1 := abs_le.mp (abs_sub_round2
    (predPrice 65000 hist r 11 + volatilityBand 65000 hist r 11))
  have b2 := abs_le.mp (abs_sub_round2
    (predPrice 65000 hist r 11 - volatilityBand 65000 hist r 11))
  have b3 := abs_le.mp (abs_sub_round2
    (predPrice 65000 hist r 10 + volatilityBand 65000 hist r 10))
  have b4 := abs_le.mp (abs_sub_round2
    (predPrice 65000 hist r 10 - volatilityBand 65000 hist r 10))
  linarith [b1.1, b1.2, b2.1, b2.2, b3.1, b3.2, b4.1, b4.2, hdiff]

/-- C6 counterexample: the prediction generator applied to a steeply
falling two-point history (closes 1 then 0.5, so the mean fractional
change is −1/2) produces a band width at step 11 strictly below the width
at step 10 — the width is not non-decreasing in the horizon index. -/
theorem C6_counterexample :
    ((generateFuturePredictions "bitcoin" 65000
          [⟨0, 0, 0, 1, 0, 0, default⟩, ⟨0, 0, 0, 0.5, 0, 0, default⟩]
          (fun _ => (0.5 : ℝ))).getD 10 default).rangeHigh
        - ((generateFuturePredictions "bitcoin" 65000
          [⟨0, 0, 0, 1, 0, 0, default⟩, ⟨0, 0, 0, 0.5, 0, 0, default⟩]
          (fun _ => (0.5 : ℝ))).getD 10 default).rangeLow
      < ((generateFuturePredictions "bitcoin" 65000
          [⟨0, 0, 0, 1, 0, 0, default⟩, ⟨0, 0, 0, 0.5, 0, 0, default⟩]
          (fun _ => (0.5 : ℝ))).getD 9 default).rangeHigh
        - ((generateFuturePredictions "bitcoin" 65000
          [⟨0, 0, 0, 1, 0, 0, default⟩, ⟨0, 0, 0, 0.5, 0, 0, default⟩]
          (fun _ => (0.5 : ℝ))).getD 9 default).rangeLow := by
  rw [predictions_getD _ _ _ _ (show (10 : ℕ) < 30 by norm_num),
    predictions_getD _ _ _ _ (show (9 : ℕ) < 30 by norm_num)]
  have havg : avgChange [(⟨0, 0, 0, 1, 0, 0, default⟩ : PricePoint),
      ⟨0, 0, 0, 0.5, 0, 0, default⟩] = -(1 / 2) := by
    have h1 : recent30 [(⟨0, 0, 0, 1, 0, 0, default⟩ : PricePoint),
        ⟨0, 0, 0, 0.5, 0, 0, default⟩]
        = [(⟨0, 0, 0, 1, 0, 0, default⟩ : PricePoint),
            ⟨0, 0, 0, 0.5, 0, 0, default⟩] := rfl
    unfold avgChange
    rw [h1]
    have h2 : avgChangeSum [(⟨0, 0, 0, 1, 0, 0, default⟩ : PricePoint),
        ⟨0, 0, 0, 0.5, 0, 0, default⟩]
        ([(⟨0, 0, 0, 1, 0, 0, default⟩ : PricePoint),
            ⟨0, 0, 0, 0.5, 0, 0, default⟩].length - 1)
        = 0 + ((0.5 : ℝ) - 1) / 1 := rfl
    rw [h2]
    have h3 : (([(⟨0, 0, 0, 1, 0, 0, default⟩ : PricePoint),
        ⟨0, 0, 0, 0.5, 0, 0, default⟩].length : ℕ) : ℝ) = 2 := by
      simp
    rw [h3]
    norm_num
  have h := width_decreases_at_10
    [(⟨0, 0, 0, 1, 0, 0, default⟩ : PricePoint), ⟨0, 0, 0, 0.5, 0, 0, default⟩]
    (fun _ => (0.5 : ℝ)) (fun n => by norm_num) havg
  exact h

/-! ### C4: indicator nullity vs. lookback -/

theorem sin_ge_of_mid {x : ℝ} (h1 : 0.5 ≤ x) (h2 : x ≤ π / 2) :
    0.317 ≤ Real.sin x := by
  have hπ2 : (0 : ℝ) < π := Real.pi_pos
  have hJ := Real.mul_le_sin (by linarith) h2
  have hπ : π < 3.15 := Real.pi_lt_d2
  have h3 : (2 / π) * 0.5 ≤ (2 / π) * x :=
    mul_le_mul_of_nonneg_left h1 (by positivity)
  have h4 : (0.317 : ℝ) ≤ (2 / π) * 0.5 := by
    rw [show (2 / π) * 0.5 = 1 / π by ring, le_div_iff₀ hπ2]
    nlinarith
  linarith

theorem sin_ge_of_window {x : ℝ} (h1 : 0.5 ≤ x) (h2 : x ≤ π - 0.5) :
    0.317 ≤ Real.sin x := by
  rcases le_total x (π / 2) with hx | hx
  · exact sin_ge_of_mid h1 hx
  · rw [← Real.sin_pi_sub]
    exact sin_ge_of_mid (by linarith) (by linarith)

/-- Days 267–280 lie deep in the negative half of the annual sine cycle:
the seasonal term is at most `-0.031` there. -/
theorem cyclical_window {i : ℕ} (h1 : 267 ≤ i) (h2 : i ≤ 280) :
    cyclical i ≤ -0.031 := by
  unfold cyclical
  have hc1 : (267 : ℝ) ≤ (i : ℝ) := by exact_mod_cast h1
  have hc2 : (i : ℝ) ≤ 280 := by exact_mod_cast h2
  have hθ : ((i : ℝ) / 365) * (2 * π) = ((2 * (i : ℝ) - 365) * π / 365) + π := by
    ring
  rw [hθ, Real.sin_add_pi]
  have hπ1 : (3.14 : ℝ) < π := Real.pi_gt_d2
  have hπ2 : π < 3.15 := Real.pi_lt_d2
  have hm1 : (169 : ℝ) * 3.14 ≤ (2 * (i : ℝ) - 365) * π := by
    have := mul_le_mul (show (169 : ℝ) ≤ 2 * (i : ℝ) - 365 by linarith)
      (le_of_lt hπ1) (by norm_num) (by linarith)
    linarith
  have hm2 : (170 : ℝ) * 3.14 ≤ (730 - 2 * (i : ℝ)) * π := by
    have := mul_le_mul (show (170 : ℝ) ≤ 730 - 2 * (i : ℝ) by linarith)
      (le_of_lt hπ1) (by norm_num) (by linarith)
    linarith
  have hx1 : (0.5 : ℝ) ≤ (2 * (i : ℝ) - 365) * π / 365 := by linarith
  have hx2 : (2 * (i : ℝ) - 365) * π / 365 ≤ π - 0.5 := by
    rw [div_le_iff₀ (show (0 : ℝ) < 365 by norm_num)]
    nlinarith
  have hs := sin_ge_of_window hx1 hx2
  nlinarith

/-- With the all-zeros draw (noise `-2.5%` daily), the price path is
non-increasing on every day of the window 267–280: the seasonal drag of at
least 3.1% plus the noise outweigh the trend increment. -/
theorem priceAt_decreasing_window {j : ℕ} (h1 : 267 ≤ j) (h2 : j ≤ 280) :
    priceAt "bitcoin" 65000 (fun _ => (0 : ℝ)) (j + 1)
      ≤ priceAt "bitcoin" 65000 (fun _ => (0 : ℝ)) j := by
  have hc := cyclical_window h1 h2
  have hfv : floorPrice "bitcoin" 65000 = 975 := by
    norm_num [floorPrice, basePrice, basePriceMult]
  have ht : trend "bitcoin" 65000 = 55250 / 1095 := by
    norm_num [trend, basePrice, basePriceMult]
  have hp : (975 : ℝ) ≤ priceAt "bitcoin" 65000 (fun _ => (0 : ℝ)) j := by
    rw [← hfv]
    exact priceAt_ge_floor _ _ _ (by omega)
  have hn : dailyNoise (fun _ => (0 : ℝ)) j = -0.025 := by
    norm_num [dailyNoise]
  show priceStep "bitcoin" 65000 (fun _ => (0 : ℝ)) j
      (priceAt "bitcoin" 65000 (fun _ => (0 : ℝ)) j)
    ≤ priceAt "bitcoin" 65000 (fun _ => (0 : ℝ)) j
  unfold priceStep preClampPrice
  rw [hn, hfv, ht]
  apply max_le
  · have hpc : priceAt "bitcoin" 65000 (fun _ => (0 : ℝ)) j * cyclical j
        ≤ priceAt "bitcoin" 65000 (fun _ => (0 : ℝ)) j * (-0.031) :=
      mul_le_mul_of_nonneg_left hc (by linarith)
    nlinarith
  · linarith

/-- C4 counterexample: with the all-zeros draw, at point index 280 the
series has 281 observations — far more than the RSI lookback of 15 — yet
the attached `rsi` is `null`: the 14 window deltas are all non-positive,
so `gains = 0` and the RSI value (0 or NaN) is falsy. -/
theorem C4_counterexample :
    ((generate3YearHistoricalData "bitcoin" 65000 (fun _ => (0 : ℝ))).getD 280
        default).indicators.rsi = none
      ∧ 14 + 1 ≤ (pricesList "bitcoin" 65000 (fun _ => (0 : ℝ)) 280).length := by
  constructor
  · rw [generate_getD _ _ _ (by norm_num)]
    have hrw : ∀ k : ℕ, (dataPoint "bitcoin" 65000 (fun _ => (0 : ℝ)) k).indicators.rsi
        = attachJs
            (calculateRSI (pricesList "bitcoin" 65000 (fun _ => (0 : ℝ)) k) 14) :=
      fun k => rfl
    rw [hrw 280]
    apply rsi_attach_none_of_gains_zero
    apply rsiGains_eq_zero
    intro i hi1 hi2
    unfold rsiChange
    rw [pricesList_length]
    have e1 : (pricesList "bitcoin" 65000 (fun _ => (0 : ℝ)) 280).getD
        (280 + 1 - i) 0
        = priceAt "bitcoin" 65000 (fun _ => (0 : ℝ)) (280 + 1 - i + 1) :=
      pricesList_getD _ _ _ (by omega)
    have e2 : (pricesList "bitcoin" 65000 (fun _ => (0 : ℝ)) 280).getD
        (280 + 1 - i - 1) 0
        = priceAt "bitcoin" 65000 (fun _ => (0 : ℝ)) (280 + 1 - i - 1 + 1) :=
      pricesList_getD _ _ _ (by omega)
    rw [e1, e2]
    have hj : 280 + 1 - i - 1 + 1 = 281 - i := by omega
    have hj2 : 280 + 1 - i + 1 = 281 - i + 1 := by omega
    rw [hj, hj2]
    have hd := priceAt_decreasing_window (show 267 ≤ 281 - i by omega)
      (show 281 - i ≤ 280 by omega)
    linarith
  · rw [pricesList_length]
    norm_num

/-- The generic SMA attachment: for any period at least 1 and any positive
current price, the attached value is `null` exactly when fewer than
`period` observations exist — the SMA of generated prices is strictly
positive, so JS truthiness never interferes. -/
theorem attachSMA_null_iff (s : String) {cp : ℝ} (r : ℕ → ℝ) (hcp : 0 < cp)
    (k period : ℕ) (hper : 1 ≤ period) (f : ℝ → ℝ) :
    attachReal (calculateSMA (pricesList s cp r k) period) f = none
      ↔ k + 1 < period := by
  unfold calculateSMA
  rw [pricesList_length]
  by_cases h : k + 1 < period
  · rw [if_pos h]
    show (none : Option ℝ) = none ↔ k + 1 < period
    constructor
    · intro _; exact h
    · intro _; rfl
  · rw [if_neg h]
    have hlen : ((pricesList s cp r k).drop (k + 1 - period)).length = period := by
      rw [List.length_drop, pricesList_length]
      omega
    have hmem : ∀ x ∈ (pricesList s cp r k).drop (k + 1 - period), 0 < x := by
      intro x hx
      have hx2 := List.mem_of_mem_drop hx
      unfold pricesList at hx2
      obtain ⟨j, _, rfl⟩ := List.mem_map.mp hx2
      exact priceAt_pos s r hcp (j + 1)
    have hne : (pricesList s cp r k).drop (k + 1 - period) ≠ [] := by
      intro hnil
      rw [hnil] at hlen
      simp at hlen
      omega
    have hsum : 0 < ((pricesList s cp r k).drop (k + 1 - period)).sum :=
      List.sum_pos _ hmem hne
    have hper0 : (0 : ℝ) < ((period : ℕ) : ℝ) := by
      have h1 : (1 : ℝ) ≤ ((period : ℕ) : ℝ) := by exact_mod_cast hper
      linarith
    have hsma : 0 < ((pricesList s cp r k).drop (k + 1 - period)).sum
        / ((period : ℕ) : ℝ) :=
      div_pos hsum hper0
    have hAtt : ∀ y : ℝ, attachReal (some y) f
        = if y = 0 then none else some (f y) := fun y => rfl
    rw [hAtt, if_neg (ne_of_gt hsma)]
    constructor
    · intro hcontra
      cases hcontra
    · intro hk19
      exact absurd hk19 h

/-- C4 (amended): for the SMA-based fields the nullity is exactly the
lookback condition — `sma20` (and both bollinger bands, which are derived
from it) is `null` iff the point index is below 19, `sma50` iff below 49,
`sma200` iff below 199; the SMA of generated prices is strictly positive,
so JS truthiness never interferes there.  The `macd` and `rsi` fields,
however, are attached through JS truthiness, which additionally maps the
falsy values to `null`: the attached `macd` is `null` exactly when
`calculateMACD` is `null` or exactly 0, and the attached `rsi` is `null`
exactly when `calculateRSI` is `null`, exactly 0, or NaN — so they can be
`null` with ample history (see the counterexample). -/
theorem C4_indicator_null_iff (s : String) {cp : ℝ} (r : ℕ → ℝ) (hcp : 0 < cp)
    {k : ℕ} (hk : k < 1095) :
    (((generate3YearHistoricalData s cp r).getD k default).indicators.sma20
        = none ↔ k < 19)
      ∧ (((generate3YearHistoricalData s cp r).getD k default).indicators.sma50
        = none ↔ k < 49)
      ∧ (((generate3YearHistoricalData s cp r).getD k default).indicators.sma200
        = none ↔ k < 199)
      ∧ (((generate3YearHistoricalData s cp r).getD k
            default).indicators.bollingerUpper = none ↔ k < 19)
      ∧ (((generate3YearHistoricalData s cp r).getD k
            default).indicators.bollingerLower = none ↔ k < 19)
      ∧ (((generate3YearHistoricalData s cp r).getD k default).indicators.macd
        = none
          ↔ (calculateMACD (pricesList s cp r k) = none
             ∨ calculateMACD (pricesList s cp r k) = some 0))
      ∧ (((generate3YearHistoricalData s cp r).getD k default).indicators.rsi
        = none
          ↔ (calculateRSI (pricesList s cp r k) 14 = none
             ∨ calculateRSI (pricesList s cp r k) 14 = some (JsNum.num 0)
             ∨ calculateRSI (pricesList s cp r k) 14 = some JsNum.nan)) := by
  rw [generate_getD _ _ _ hk]
  refine ⟨?_, ?_, ?_, ?_, ?_, ?_, ?_⟩
  · have hrw : (dataPoint s cp r k).indicators.sma20
        = attachReal (calculateSMA (pricesList s cp r k) 20) round2 := rfl
    rw [hrw, attachSMA_null_iff s r hcp k 20 (by norm_num) round2]
    omega
  · have hrw : (dataPoint s cp r k).indicators.sma50
        = attachReal (calculateSMA (pricesList s cp r k) 50) round2 := rfl
    rw [hrw, attachSMA_null_iff s r hcp k 50 (by norm_num) round2]
    omega
  · have hrw : (dataPoint s cp r k).indicators.sma200
        = attachReal (calculateSMA (pricesList s cp r k) 200) round2 := rfl
    rw [hrw, attachSMA_null_iff s r hcp k 200 (by norm_num) round2]
    omega
  · have hrw : (dataPoint s cp r k).indicators.bollingerUpper
        = attachReal (calculateSMA (pricesList s cp r k) 20)
            (fun x => round2 (x * 1.02)) := rfl
    rw [hrw, attachSMA_null_iff s r hcp k 20 (by norm_num)
      (fun x => round2 (x * 1.02))]
    omega
  · have hrw : (dataPoint s cp r k).indicators.bollingerLower
        = attachReal (calculateSMA (pricesList s cp r k) 20)
            (fun x => round2 (x * 0.98)) := rfl
    rw [hrw, attachSMA_null_iff s r hcp k 20 (by norm_num)
      (fun x => round2 (x * 0.98))]
    omega
  · have hrw : (dataPoint s cp r k).indicators.macd
        = attachReal (calculateMACD (pricesList s cp r k)) round4 := rfl
    rw [hrw]
    cases hM : calculateMACD (pricesList s cp r k) with
    | none =>
        show (none : Option ℝ) = none ↔ _
        simp
    | some m =>
        have hAtt : attachReal (some m) round4
            = if m = 0 then none else some (round4 m) := rfl
        rw [hAtt]
        by_cases hm : m = 0
        · subst hm
          rw [if_pos rfl]
          simp
        · rw [if_neg hm]
          simp [hm]
  · have hrw : (dataPoint s cp r k).indicators.rsi
        = attachJs (calculateRSI (pricesList s cp r k) 14) := rfl
    rw [hrw]
    cases hR : calculateRSI (pricesList s cp r k) 14 with
    | none =>
        show (none : Option JsNum) = none ↔ _
        simp
    | some j =>
        have hAtt : attachJs (some j)
            = if JsNum.truthy j then some j.fix2 else none := rfl
        rw [hAtt]
        cases j with
        | num x =>
            by_cases hx : x = 0
            · subst hx
              rw [if_neg (by simp [JsNum.truthy])]
              simp
            · rw [if_pos (by simp [JsNum.truthy, hx])]
              simp [JsNum.fix2, hx]
        | posInf =>
            rw [if_pos (by simp [JsNum.truthy])]
            simp [JsNum.fix2]
        | negInf =>
            rw [if_pos (by simp [JsNum.truthy])]
            simp [JsNum.fix2]
        | nan =>
            rw [if_neg (by simp [JsNum.truthy])]
            simp

theorem C4_indicator_null_iff_witness :
    ((((generate3YearHistoricalData "bitcoin" 1 (fun _ => 0)).getD 0
        default).indicators.sma20 = none ↔ (0 : ℕ) < 19)
      ∧ ((((generate3YearHistoricalData "bitcoin" 1 (fun _ => 0)).getD 0
        default).indicators.sma50 = none) ↔ (0 : ℕ) < 49)
      ∧ ((((generate3YearHistoricalData "bitcoin" 1 (fun _ => 0)).getD 0
        default).indicators.sma200 = none) ↔ (0 : ℕ) < 199)
      ∧ ((((generate3YearHistoricalData "bitcoin" 1 (fun _ => 0)).getD 0
        default).indicators.bollingerUpper = none) ↔ (0 : ℕ) < 19)
      ∧ ((((generate3YearHistoricalData "bitcoin" 1 (fun _ => 0)).getD 0
        default).indicators.bollingerLower = none) ↔ (0 : ℕ) < 19)
      ∧ ((((generate3YearHistoricalData "bitcoin" 1 (fun _ => 0)).getD 0
        default).indicators.macd = none)
          ↔ (calculateMACD (pricesList "bitcoin" 1 (fun _ => 0) 0) = none
             ∨ calculateMACD (pricesList "bitcoin" 1 (fun _ => 0) 0) = some 0))
      ∧ ((((generate3YearHistoricalData "bitcoin" 1 (fun _ => 0)).getD 0
        default).indicators.rsi = none)
          ↔ (calculateRSI (pricesList "bitcoin" 1 (fun _ => 0) 0) 14 = none
             ∨ calculateRSI (pricesList "bitcoin" 1 (fun _ => 0) 0) 14
                = some (JsNum.num 0)
             ∨ calculateRSI (pricesList "bitcoin" 1 (fun _ => 0) 0) 14
                = some JsNum.nan))) :=
  C4_indicator_null_iff "bitcoin" (fun _ => 0) (by norm_num) (by norm_num)
